/-
Verification of the No Agenda Mixer audio core against its specification.

Shallow embedding conventions:
* Python floats are modelled as exact rationals (ℚ).
* A mono audio buffer is a `List ℚ` of samples (for pydub code, one entry
  per millisecond, since pydub indexes `AudioSegment`s by milliseconds).
* Python `int(x)` (truncation toward zero) is `pyInt`.
* Python's stable `list.sort` is modelled by `List.insertionSort`, which is
  stable and evaluates by kernel reduction.
* `try/except` blocks around pipelines whose failure we must reason about are
  modelled with `Except String`-valued stage functions.
-/
import Mathlib

/-- Python `int(x)`: truncation toward zero. -/
def pyInt (q : ℚ) : ℤ := if 0 ≤ q then ⌊q⌋ else ⌈q⌉

namespace AudioProcessor

/-- One theme's processing parameters, from the `processing_chains` registry in
`src/web/audio_processor.py` (constructor of `ProfessionalAudioProcessor`).
The field `compression_ratio_val` models the dictionary key
`compression_ratio`. -/
structure ThemeSettings where
  eq_low_gain : ℚ
  eq_mid_gain : ℚ
  eq_high_gain : ℚ
  compression_ratio_val : ℚ
  compression_threshold : ℚ
  reverb_room_size : ℚ
  reverb_wet : ℚ
  limiter_threshold : ℚ
  description : String
  deriving DecidableEq, Repr

/-- The "Best Of" profile (audio_processor.py lines 37-47). -/
def bestOfSettings : ThemeSettings :=
  { eq_low_gain := 2, eq_mid_gain := 3/2, eq_high_gain := 6/5,
    compression_ratio_val := 3, compression_threshold := -18,
    reverb_room_size := 1/5, reverb_wet := 1/10, limiter_threshold := -1/2,
    description := "Warm, polished broadcast sound" }

/-- The "Media Meltdown" profile (audio_processor.py lines 48-58). -/
def mediaMeltdownSettings : ThemeSettings :=
  { eq_low_gain := 3/2, eq_mid_gain := 5/2, eq_high_gain := 2,
    compression_ratio_val := 4, compression_threshold := -15,
    reverb_room_size := 1/10, reverb_wet := 1/20, limiter_threshold := -3/10,
    description := "Aggressive, in-your-face processing" }

/-- The "Conspiracy Corner" profile (audio_processor.py lines 59-69). -/
def conspiracyCornerSettings : ThemeSettings :=
  { eq_low_gain := 4/5, eq_mid_gain := 6/5, eq_high_gain := 9/10,
    compression_ratio_val := 5/2, compression_threshold := -20,
    reverb_room_size := 2/5, reverb_wet := 1/5, limiter_threshold := -7/10,
    description := "Dark, mysterious atmosphere" }

/-- The "Donation Nation" profile (audio_processor.py lines 70-80). -/
def donationNationSettings : ThemeSettings :=
  { eq_low_gain := 11/5, eq_mid_gain := 9/5, eq_high_gain := 3/2,
    compression_ratio_val := 7/2, compression_threshold := -16,
    reverb_room_size := 3/10, reverb_wet := 3/25, limiter_threshold := -2/5,
    description := "Full, celebratory sound" }

/-- The "Musical Mayhem" profile (audio_processor.py lines 81-91). -/
def musicalMayhemSettings : ThemeSettings :=
  { eq_low_gain := 9/5, eq_mid_gain := 13/10, eq_high_gain := 8/5,
    compression_ratio_val := 14/5, compression_threshold := -17,
    reverb_room_size := 1/4, reverb_wet := 9/50, limiter_threshold := -3/5,
    description := "Optimized for musical content" }

/-- The fixed built-in theme registry `self.processing_chains`
(audio_processor.py lines 36-92), as an association list. -/
def processing_chains : List (String × ThemeSettings) :=
  [("Best Of", bestOfSettings),
   ("Media Meltdown", mediaMeltdownSettings),
   ("Conspiracy Corner", conspiracyCornerSettings),
   ("Donation Nation", donationNationSettings),
   ("Musical Mayhem", musicalMayhemSettings)]

/-- Theme resolution `self.processing_chains.get(theme, self.processing_chains['Best Of'])`
(audio_processor.py line 285): dictionary lookup with "Best Of" as default. -/
def get_chain (theme : String) : ThemeSettings :=
  (processing_chains.lookup theme).getD bestOfSettings

/-!
Peak-level (dBFS) shadow of the final two steps of
`apply_professional_processing` (audio_processor.py lines 314-320).
Both steps act on the buffer only through a uniform gain, so their effect is
fully described by how they transform the peak level `max_dBFS`:
`apply_gain(g)` adds `g` to the peak, and pydub's `normalize` (default
headroom 0.1 dB) sets a non-silent buffer's peak to exactly -0.1 dBFS.
-/

/-- Step 4 of `apply_professional_processing` (lines 315-317): if the peak
exceeds `limiter_threshold`, apply a uniform gain of
`limiter_threshold - max_dBFS` to the whole buffer. -/
def limiter_step (limiterThreshold peak : ℚ) : ℚ :=
  if limiterThreshold < peak then peak + (limiterThreshold - peak) else peak

/-- Step 5 of `apply_professional_processing` (line 320): pydub
`normalize(processed)` with default headroom 0.1 dB sets the peak of a
non-silent buffer to -0.1 dBFS, regardless of its prior level. -/
def normalize_step_peak (_peak : ℚ) : ℚ := -(1/10)

/-- The peak level returned by the full `apply_professional_processing` chain
(audio_processor.py lines 282-327) for a non-silent buffer, as a function of
the theme and of the peak produced by steps 1-3 (normalize/EQ/compression,
abstracted into the input peak since step 5 erases their effect on the peak). -/
def final_stages_peak (theme : String) (peak : ℚ) : ℚ :=
  normalize_step_peak (limiter_step (get_chain theme).limiter_threshold peak)

/-!
### Segment selection (audio_processor.py lines 220-280)
-/

/-- One high-energy segment of the analysis dictionary produced by
`analyze_audio_advanced` (audio_processor.py lines 175-197): the fields that
`intelligent_segment_selection` reads. -/
structure AnalysisSegment where
  start_time : ℚ
  end_time : ℚ
  duration : ℚ
  energy_score : ℚ
  deriving DecidableEq, Repr

/-- The part of the analysis dictionary consumed by
`intelligent_segment_selection`: total duration and the high-energy
segment list. -/
structure Analysis where
  duration : ℚ
  high_energy_segments : List AnalysisSegment
  deriving DecidableEq, Repr

/-- A selected candidate segment as produced by
`intelligent_segment_selection` / `create_distributed_segments`
(the fields the pipeline reads downstream plus the selection metadata the
source attaches). -/
structure SelectedSegment where
  name : String
  timestamp : ℚ
  duration : ℚ
  confidence : ℚ
  selection_method : String
  deriving DecidableEq, Repr

/-- Model of `create_distributed_segments` (audio_processor.py lines 262-280): evenly
distributed fallback segments of length `min_duration`, clamped into
`[0, duration - min_duration]`. -/
def create_distributed_segments (duration : ℚ) (count : ℕ) (min_duration : ℚ) :
    List SelectedSegment :=
  (List.range count).map fun (i : ℕ) =>
    let segment_gap := duration / ((count : ℚ) + 1)
    let raw_start := ((i : ℚ) + 1) * segment_gap - min_duration / 2
    let start_time := max 0 (min (duration - min_duration) raw_start)
    { name := "Distributed Segment " ++ toString (i + 1),
      timestamp := start_time,
      duration := min_duration,
      confidence := 3/5,
      selection_method := "distributed" }

/-- Model of `intelligent_segment_selection` (audio_processor.py lines 220-254):
filter the analysis segments by duration; if at least `target_segments`
survive, sort by energy score descending (Python's stable sort is modelled by
`insertionSort`) and take the top ones, attaching metadata; otherwise fall
back to `create_distributed_segments`; finally sort by timestamp. -/
def intelligent_segment_selection (analysis : Analysis) (target_segments : ℕ)
    (min_duration max_duration : ℚ) : List SelectedSegment :=
  let valid_segments := analysis.high_energy_segments.filter
    (fun s => decide (min_duration ≤ s.duration) && decide (s.duration ≤ max_duration))
  let selected :=
    if target_segments ≤ valid_segments.length then
      ((valid_segments.insertionSort
          (fun a b => b.energy_score ≤ a.energy_score)).take target_segments).enum.map
        (fun p =>
          { name := "High Energy Segment " ++ toString (p.1 + 1),
            timestamp := p.2.start_time,
            duration := p.2.duration,
            confidence := 9/10,
            selection_method := "energy_based" })
    else
      create_distributed_segments analysis.duration target_segments min_duration
  selected.insertionSort (fun a b => a.timestamp ≤ b.timestamp)

/-!
### Per-segment batch processing (audio_processor.py lines 487-526)

A pydub `AudioSegment` is indexed by milliseconds, so the source buffer is a
`List ℚ` with one sample per millisecond and `len(full_audio)` is its length.
The theme-chain DSP applied to each slice is abstracted as a parameter
`proc`, since these claims are about dispatch/ordering/skipping, not about
the DSP arithmetic itself.
-/

/-- The two fields of a candidate-segment dictionary that the mixing and
batch-processing code reads (`segment['timestamp']`, `segment['duration']`),
both in seconds. -/
structure MixSeg where
  timestamp : ℚ
  duration : ℚ
  deriving DecidableEq, Repr

/-- Model of `full_audio[start_ms:end_ms]` for non-negative bounds. -/
def listSlice (l : List ℚ) (a b : ℤ) : List ℚ := (l.take b.toNat).drop a.toNat

/-- The bounds check `start_ms < len(full_audio) and end_ms <= len(full_audio)`
shared by `create_professional_mix` (line 357) and `batch_process_segments`
(line 503). -/
def in_bounds (full : List ℚ) (segment : MixSeg) : Bool :=
  let start_ms := pyInt (segment.timestamp * 1000)
  let end_ms := start_ms + pyInt (segment.duration * 1000)
  decide (start_ms < (full.length : ℤ)) && decide (end_ms ≤ (full.length : ℤ))

/-- Model of `process_single_segment` inside `batch_process_segments`
(audio_processor.py lines 496-510): slice the indexed segment out of the
shared source and process it, or yield `(i, None)` when the slice range is out
of bounds (or the worker raised). -/
def process_single_segment (proc : List ℚ → List ℚ) (full : List ℚ)
    (i : ℕ) (segment : MixSeg) : ℕ × Option (List ℚ) :=
  if in_bounds full segment then
    let start_ms := pyInt (segment.timestamp * 1000)
    let end_ms := start_ms + pyInt (segment.duration * 1000)
    (i, some (proc (listSlice full start_ms end_ms)))
  else (i, none)

/-- Model of `batch_process_segments` (audio_processor.py lines 487-526):
`executor.map` over the enumerated segments (which preserves submission
order), then `sorted(results)` by index, then keep only truthy results
(`if processed:` drops both `None` and empty buffers). -/
def batch_process_segments (proc : List ℚ → List ℚ) (full : List ℚ)
    (segments : List MixSeg) : List (List ℚ) :=
  let results := segments.enum.map (fun p => process_single_segment proc full p.1 p.2)
  let sorted_results := results.insertionSort (fun a b => a.1 ≤ b.1)
  sorted_results.filterMap (fun p =>
    match p.2 with
    | some b => if b.isEmpty then none else some b
    | none => none)

/-- Millisecond silence: `AudioSegment.silent(duration=ms)`. -/
def silent (ms : ℕ) : List ℚ := List.replicate ms 0

/-- One iteration of the per-segment loop in `create_professional_mix`
(audio_processor.py lines 349-375): skip the segment when its slice range is
out of bounds, otherwise append the processed (and faded) slice, followed by
a 1 s gap unless it is the last candidate (`total` is `len(segments)`). -/
def mix_step (proc fadeInF fadeOutF : List ℚ → List ℚ) (full : List ℚ) (total : ℕ)
    (acc : List (List ℚ)) (p : ℕ × MixSeg) : List (List ℚ) :=
  let i := p.1
  let segment := p.2
  if in_bounds full segment then
    let start_ms := pyInt (segment.timestamp * 1000)
    let end_ms := start_ms + pyInt (segment.duration * 1000)
    let segment_audio := listSlice full start_ms end_ms
    let processed := proc segment_audio
    let processed := if 1 < acc.length then fadeInF processed else processed
    let processed := fadeOutF processed
    let acc := acc ++ [processed]
    if i < total - 1 then acc ++ [silent 1000] else acc
  else acc

/-- Model of `create_professional_mix` (audio_processor.py lines 329-400), with the
per-segment theme processing, 500 ms fades, and final mastering pass
abstracted as parameters (`proc`, `fadeInF`, `fadeOutF`, `master`).
The returned value models the export: `none` models `return None`
("No segments to mix"), `some buf` models a successful
`export_professional_mix` call on the assembled buffer. -/
def create_professional_mix (proc master fadeInF fadeOutF : List ℚ → List ℚ)
    (full : List ℚ) (segments : List MixSeg) : Option (List ℚ) :=
  let intro := silent 2000
  let mix_segments := segments.enum.foldl
    (mix_step proc fadeInF fadeOutF full segments.length) [intro]
  let mix_segments := mix_segments ++ [silent 3000]
  if mix_segments.isEmpty then none
  else some (master mix_segments.flatten)

/-- C2 failing input, the source: a 10 ms audio buffer. -/
def c2_source : List ℚ := silent 10

/-- C2 failing input, the candidates: five segments that all start 20 s past
the end of the 10 ms source, so that every one of them fails processing. -/
def c2_segments : List MixSeg := List.replicate 5 ⟨20, 1⟩

end AudioProcessor

namespace PerformanceOptimizer

/-- Model of `parallel_segment_processing` (performance_optimizer.py lines 84-120):
one future per segment; `as_completed` yields results in *completion order*
(modelled by the index list `completion_order`); a failed or timed-out worker
appends `None` (modelled by `procF` returning `none`); finally `None` entries
are filtered out, with no reordering. -/
def parallel_segment_processing {α : Type} (procF : MixSeg → Option α)
    (segments : List MixSeg) (completion_order : List ℕ) : List α :=
  let results : List (Option α) :=
    completion_order.filterMap (fun i => (segments.get? i).map procF)
  results.filterMap id

end PerformanceOptimizer

namespace ProfessionalMixer

/-- One entry of `analysis['high_energy_segments']` built by
`analyze_audio_content` (professional_mixer.py lines 202-209): the fields the
selector reads. -/
structure HESeg where
  time : ℚ
  energy : ℚ
  deriving DecidableEq, Repr

/-- The part of the analysis dictionary consumed by the selector in
professional_mixer.py: high-energy segments and onset times. -/
structure Analysis where
  high_energy_segments : List HESeg
  onsets : List ℚ
  deriving DecidableEq, Repr

/-- A selected segment dictionary as built by
`intelligent_segment_selection` in professional_mixer.py (the fields later
code reads; the free-text `description` is omitted). -/
structure PMSegment where
  name : String
  timestamp : ℚ
  duration : ℚ
  confidence : ℚ
  deriving DecidableEq, Repr

/-- Model of `np.random.randint(lo, hi)`: a value in `[lo, hi)` obtained from one draw
of the process-global random stream. The stream is made explicit as the
`draw` argument; any entropy value maps into the documented range. -/
def randint (lo hi draw : ℕ) : ℕ := lo + draw % (hi - lo)

/-- Model of `min(onsets, key=lambda x: abs(x - start_time))` (professional_mixer.py
line 276): first minimiser of the absolute distance; `0` on an empty list
(where Python would raise, but the call site guards `if onsets:`). -/
def nearest_onset (onsets : List ℚ) (start_time : ℚ) : ℚ :=
  match onsets with
  | [] => 0
  | o :: rest => rest.foldl (fun best x => if |x - start_time| < |best - start_time| then x else best) o

/-- One iteration of the greedy spaced selection loop of the energy path
(professional_mixer.py lines 244-260): stop once `target` segments are
selected, and skip any segment whose time lies within `min_gap` of an
already-selected timestamp. -/
def greedy_step (min_gap : ℚ) (target : ℕ) (acc : List PMSegment) (seg : HESeg) :
    List PMSegment :=
  if target ≤ acc.length then acc
  else if acc.any (fun s => decide (|seg.time - s.timestamp| < min_gap)) then acc
  else acc ++ [{ name := "High Energy Segment " ++ toString (acc.length + 1),
                 timestamp := seg.time,
                 duration := 15 + seg.energy * 10,
                 confidence := seg.energy }]

/-- The greedy spaced selection loop of the energy path
(professional_mixer.py lines 244-260), walking the energy-sorted segments. -/
def greedy_select (min_gap : ℚ) (target : ℕ) (sorted_segments : List HESeg) :
    List PMSegment :=
  sorted_segments.foldl (greedy_step min_gap target) []

/-- Model of `create_fallback_segments` (professional_mixer.py lines 296-311): equal
time division, 15 s segments, confidence 0.5. -/
def create_fallback_segments (duration : ℚ) (target_segments : ℕ) : List PMSegment :=
  (List.range target_segments).map fun (i : ℕ) =>
    let segment_duration := duration / ((target_segments : ℚ) + 1)
    { name := "Segment " ++ toString (i + 1),
      timestamp := ((i : ℚ) + 1/2) * segment_duration,
      duration := 15,
      confidence := 1/2 }

/-- The onset-based fallback and the last-resort fallback
(professional_mixer.py lines 267-290): if onsets exist, place one segment at
the onset nearest each equal-division boundary with a *randomized* duration
`12 + np.random.randint(6, 18)`; otherwise fall back to equal time
division. -/
def onset_phase (duration : ℚ) (onsets : List ℚ) (target_segments : ℕ)
    (draws : ℕ → ℕ) : List PMSegment :=
  if onsets.isEmpty then create_fallback_segments duration target_segments
  else
    let segment_duration := duration / (target_segments : ℚ)
    (List.range target_segments).map fun (i : ℕ) =>
      let start_time := (i : ℚ) * segment_duration
      { name := "Onset Segment " ++ toString (i + 1),
        timestamp := nearest_onset onsets start_time,
        duration := 12 + ((randint 6 18 (draws i) : ℕ) : ℚ),
        confidence := 7/10 }

/-- The high-energy branch of `intelligent_segment_selection`
(professional_mixer.py lines 237-260): sort by energy descending (Python's
stable sort modelled by `insertionSort`), then greedily select with minimum
gap `duration / (target_segments * 2)`. -/
def energy_phase (duration : ℚ) (hes : List HESeg) (target_segments : ℕ) :
    List PMSegment :=
  let sorted_segments := hes.insertionSort (fun a b => b.energy ≤ a.energy)
  let min_gap := duration / ((target_segments : ℚ) * 2)
  greedy_select min_gap target_segments sorted_segments

/-- Model of `intelligent_segment_selection` (professional_mixer.py lines 228-294):
prefer the high-energy path (re-sorted chronologically when non-empty); fall
through to the onset path, then to equal division. `duration = len(audio)/sr`
is passed directly; the global numpy random stream is the explicit `draws`. -/
def intelligent_segment_selection (duration : ℚ) (analysis : Analysis)
    (target_segments : ℕ) (draws : ℕ → ℕ) : List PMSegment :=
  if analysis.high_energy_segments.isEmpty then
    onset_phase duration analysis.onsets target_segments draws
  else
    let selected_segments := energy_phase duration analysis.high_energy_segments
      target_segments
    if selected_segments.isEmpty then
      onset_phase duration analysis.onsets target_segments draws
    else
      selected_segments.insertionSort (fun a b => a.timestamp ≤ b.timestamp)

/-!
### Crossfade assembly (professional_mixer.py lines 507-546)
-/

/-- Model of `np.linspace a b n`: `n` evenly spaced points from `a` to `b` inclusive. -/
def linspace (a b : ℚ) (n : ℕ) : List ℚ :=
  if n ≤ 1 then (List.range n).map (fun _ => a)
  else (List.range n).map (fun (k : ℕ) => a + (b - a) * (k : ℚ) / ((n : ℚ) - 1))

/-- One iteration of the loop in `crossfade_segments` (professional_mixer.py
lines 518-544): overlap-add the tail of `result` and the head of `current`
over `crossfade_samples` samples when both are strictly longer than the
crossfade, else plain concatenation. -/
def crossfade_pair (crossfade_samples : ℕ) (result current : List ℚ) : List ℚ :=
  if crossfade_samples < result.length ∧ crossfade_samples < current.length then
    let overlap_end := result.drop (result.length - crossfade_samples)
    let overlap_start := current.take crossfade_samples
    let fade_out_curve := linspace 1 0 crossfade_samples
    let fade_in_curve := linspace 0 1 crossfade_samples
    let crossfaded := List.zipWith (· + ·)
      (List.zipWith (· * ·) overlap_end fade_out_curve)
      (List.zipWith (· * ·) overlap_start fade_in_curve)
    result.take (result.length - crossfade_samples) ++ crossfaded ++
      current.drop crossfade_samples
  else
    result ++ current

/-- Model of `crossfade_segments` (professional_mixer.py lines 507-546) on mono
buffers, with `crossfade_samples = int(crossfade_duration * sample_rate)`
passed as a sample count. -/
def crossfade_segments (crossfade_samples : ℕ) (segments : List (List ℚ)) : List ℚ :=
  match segments with
  | [] => []
  | first :: rest => rest.foldl (crossfade_pair crossfade_samples) first

/-!
### Exception-swallowing wrappers (C10)

The DSP stage bodies are numpy/pydub/pedalboard calls; what the claim is
about is the `try/except` control flow around them, so each stage is
modelled as a fallible function returning `Except String`.
-/

/-- Model of `apply_mastering_chain` (professional_mixer.py lines 548-563): run the
fixed mastering pedalboard over the buffer, returning the input unchanged if
it raises. -/
def apply_mastering_chain (chain : List ℚ → Except String (List ℚ))
    (buf : List ℚ) : List ℚ :=
  match chain buf with
  | .ok r => r
  | .error _ => buf

end ProfessionalMixer

namespace AudioProcessor

/-- The body of `apply_professional_processing` (audio_processor.py lines
284-323) as the in-order composition of its five fallible stages:
input normalize, EQ adjustment, dynamic-range compression, limiting, final
normalize. An error in any stage aborts the whole chain. -/
def run_chain (s1 s2 s3 s4 s5 : List ℚ → Except String (List ℚ))
    (buf : List ℚ) : Except String (List ℚ) :=
  match s1 buf with
  | .error e => .error e
  | .ok b1 =>
    match s2 b1 with
    | .error e => .error e
    | .ok b2 =>
      match s3 b2 with
      | .error e => .error e
      | .ok b3 =>
        match s4 b3 with
        | .error e => .error e
        | .ok b4 => s5 b4

/-- Model of `apply_professional_processing` (audio_processor.py lines 282-327) at the
exception level: the whole chain runs inside one `try`, and the `except`
handler returns the original input buffer. -/
def apply_professional_processing_exc
    (s1 s2 s3 s4 s5 : List ℚ → Except String (List ℚ)) (buf : List ℚ) : List ℚ :=
  match run_chain s1 s2 s3 s4 s5 buf with
  | .ok r => r
  | .error _ => buf

end AudioProcessor

/-!
## Theorems
-/

/-- C1: the spec claims the parallel batch runner's output is always ordered
by original candidate index, regardless of worker completion order — and the
source's own comment says "sort by original order" — but
`parallel_segment_processing` appends `as_completed` results without sorting.
With candidates `[t=1, t=2]` and completion order worker 1 before worker 0,
the output is `[3, 1]` (completion order); with the opposite completion order
it is `[1, 3]`: the output depends on completion order and is not in
candidate order. -/
theorem parallel_runner_completion_order_bug :
    PerformanceOptimizer.parallel_segment_processing
      (fun s => some s.timestamp) ([⟨1, 2⟩, ⟨3, 4⟩] : List AudioProcessor.MixSeg)
      [1, 0] = [3, 1] ∧
    PerformanceOptimizer.parallel_segment_processing
      (fun s => some s.timestamp) ([⟨1, 2⟩, ⟨3, 4⟩] : List AudioProcessor.MixSeg)
      [0, 1] = [1, 3] := by
  constructor <;> with_unfolding_all decide

namespace AudioProcessor

/-- C4 counterexample: with the "Best Of" profile (limiter threshold
-0.5 dBFS) and any non-silent buffer reaching the limiter at -6 dBFS, the
value returned by the full chain has peak -0.1 dBFS, which exceeds
`limiter_threshold + 0.01 dB = -0.49 dBFS`: the final `normalize` (step 5)
undoes the limiter ceiling. -/
theorem theme_chain_limiter_ceiling_counterexample :
    final_stages_peak "Best Of" (-6) = -(1/10) ∧
    ¬(final_stages_peak "Best Of" (-6) ≤ (get_chain "Best Of").limiter_threshold + 1/100) := by
  constructor <;> with_unfolding_all decide

/-- C4 (amended): the limiting step itself (lines 315-317) does bring the
peak down to at most `limiter_threshold`; but the chain then renormalizes
(line 320), so the peak of the returned buffer is always -0.1 dBFS — which
exceeds `limiter_threshold + 0.01 dB` for every profile in the built-in
registry. -/
theorem limiter_step_bounded_but_normalize_overrides (theme : String) (peak : ℚ) :
    limiter_step (get_chain theme).limiter_threshold peak ≤ (get_chain theme).limiter_threshold
    ∧ final_stages_peak theme peak = -(1/10)
    ∧ ∀ p ∈ processing_chains, p.2.limiter_threshold + 1/100 < -(1/10) := by
  refine ⟨?_, rfl, ?_⟩
  · unfold limiter_step
    split <;> linarith
  · intro p hp
    simp only [processing_chains, List.mem_cons, List.not_mem_nil, or_false] at hp
    rcases hp with h | h | h | h | h <;> subst h <;>
      norm_num [bestOfSettings, mediaMeltdownSettings, conspiracyCornerSettings,
        donationNationSettings, musicalMayhemSettings]

/-- C9: an unknown theme key resolves to the "Best Of" profile, and the
theme-processing chain behaves identically to processing with "Best Of". -/
theorem unknown_theme_defaults_to_best_of (theme : String) (peak : ℚ)
    (h : theme ∉ processing_chains.map Prod.fst) :
    get_chain theme = get_chain "Best Of" ∧
    final_stages_peak theme peak = final_stages_peak "Best Of" peak := by
  have hnone : processing_chains.lookup theme = none := by
    rw [List.lookup_eq_none_iff]
    intro p hp
    simp only [bne_iff_ne, ne_eq, beq_iff_eq]
    intro hkey
    exact h (hkey ▸ List.mem_map_of_mem Prod.fst hp)
  have h1 : get_chain theme = bestOfSettings := by
    rw [get_chain, hnone]; rfl
  have h2 : get_chain "Best Of" = bestOfSettings := by rfl
  refine ⟨h1.trans h2.symm, ?_⟩
  unfold final_stages_peak
  rw [h1, h2]

/-- C9 witness: the concrete unknown key "Rock" resolves to "Best Of" and is
processed identically. -/
theorem unknown_theme_defaults_to_best_of_witness :
    get_chain "Rock" = get_chain "Best Of" ∧
    final_stages_peak "Rock" 0 = final_stages_peak "Best Of" 0 :=
  unknown_theme_defaults_to_best_of "Rock" 0 (by decide)

/-- C10: the theme processing chain is a total function (it never raises):
either some stage failed and the caller receives the original input buffer
unchanged, or the whole five-stage chain succeeded and the caller receives
its final output; the same holds for the single-stage mastering wrapper. -/
theorem processing_chain_atomic_fallback
    (s1 s2 s3 s4 s5 chain : List ℚ → Except String (List ℚ)) (buf : List ℚ) :
    ((∃ e, run_chain s1 s2 s3 s4 s5 buf = .error e ∧
        apply_professional_processing_exc s1 s2 s3 s4 s5 buf = buf) ∨
      run_chain s1 s2 s3 s4 s5 buf =
        .ok (apply_professional_processing_exc s1 s2 s3 s4 s5 buf)) ∧
    ((∃ e, chain buf = .error e ∧ ProfessionalMixer.apply_mastering_chain chain buf = buf) ∨
      chain buf = .ok (ProfessionalMixer.apply_mastering_chain chain buf)) := by
  constructor
  · cases h : run_chain s1 s2 s3 s4 s5 buf with
    | ok r =>
      right
      unfold apply_professional_processing_exc
      rw [h]
    | error e =>
      left
      refine ⟨e, rfl, ?_⟩
      unfold apply_professional_processing_exc
      rw [h]
  · cases h : chain buf with
    | ok r =>
      right
      unfold ProfessionalMixer.apply_mastering_chain
      rw [h]
    | error e =>
      left
      refine ⟨e, rfl, ?_⟩
      unfold ProfessionalMixer.apply_mastering_chain
      rw [h]

end AudioProcessor

namespace AudioProcessor

theorem mix_step_skips (proc fadeInF fadeOutF : List ℚ → List ℚ) (full : List ℚ)
    (total : ℕ) (acc : List (List ℚ)) (p : ℕ × MixSeg)
    (h : in_bounds full p.2 = false) :
    mix_step proc fadeInF fadeOutF full total acc p = acc := by
  simp only [mix_step, h, Bool.false_eq_true, if_false]

theorem foldl_mix_step_all_skipped (proc fadeInF fadeOutF : List ℚ → List ℚ)
    (full : List ℚ) (total : ℕ) :
    ∀ (l : List MixSeg) (n : ℕ) (acc : List (List ℚ)),
      (∀ s ∈ l, in_bounds full s = false) →
      (l.enumFrom n).foldl (mix_step proc fadeInF fadeOutF full total) acc = acc := by
  intro l
  induction l with
  | nil => intro n acc _; rfl
  | cons s rest ih =>
    intro n acc h
    rw [List.enumFrom_cons, List.foldl_cons,
      mix_step_skips proc fadeInF fadeOutF full total acc (n, s)
        (h s (List.mem_cons_self s rest))]
    exact ih (n + 1) acc (fun t ht => h t (List.mem_cons_of_mem s ht))

/-- If every candidate segment's slice range is out of bounds, the whole-run
guard is never reached: `mix_segments` still holds the unconditional intro
and outro, and the export is attempted on the 2 s intro + 3 s outro silence
with zero content segments. -/
theorem create_professional_mix_all_skipped
    (proc master fadeInF fadeOutF : List ℚ → List ℚ) (full : List ℚ)
    (segments : List MixSeg) (h : ∀ s ∈ segments, in_bounds full s = false) :
    create_professional_mix proc master fadeInF fadeOutF full segments =
      some (master (silent 2000 ++ silent 3000)) := by
  simp only [create_professional_mix, List.enum,
    foldl_mix_step_all_skipped proc fadeInF fadeOutF full segments.length
      segments 0 [silent 2000] h]
  simp

/-- C2: with all five candidate segments failing (out of range), the run does
NOT terminate as a whole-run failure: the unconditional intro/outro make
`mix_segments` non-empty, so the dead "No segments to mix" guard is skipped
and an export of a 5-second silent mix (2 s intro + 3 s outro, zero content
segments) is attempted. Likewise `parallel_segment_processing` returns a
plain empty list when every worker fails, signalling no terminal error. -/
theorem all_segments_failed_still_exports :
    (c2_segments.filter (in_bounds c2_source)).length = 0 ∧
    create_professional_mix id id id id c2_source c2_segments =
      some (silent 2000 ++ silent 3000) ∧
    PerformanceOptimizer.parallel_segment_processing
      (fun _ => (none : Option (List ℚ))) c2_segments [0, 1, 2, 3, 4] = [] := by
  refine ⟨?_, ?_, ?_⟩
  · with_unfolding_all decide
  · exact create_professional_mix_all_skipped id id id id c2_source c2_segments
      (by with_unfolding_all decide)
  · with_unfolding_all decide

end AudioProcessor

namespace ProfessionalMixer

theorem linspace_length (a b : ℚ) (n : ℕ) : (linspace a b n).length = n := by
  unfold linspace
  split <;> rw [List.length_map, List.length_range]

/-- C7: crossfading two buffers that are each strictly longer than the
crossfade yields a buffer of length `len a + len b - crossfade_samples`
(exactly, in this sample-indexed model); if either buffer is shorter than the
crossfade, the boundary degrades to plain concatenation of total length
`len a + len b`; `crossfade_segments` is total, so no error is raised. -/
theorem crossfade_two_buffers_length (a b : List ℚ) (cf : ℕ) :
    (cf < a.length → cf < b.length →
      (crossfade_segments cf [a, b]).length = a.length + b.length - cf) ∧
    (a.length < cf ∨ b.length < cf →
      (crossfade_segments cf [a, b]).length = a.length + b.length) := by
  have hpair : crossfade_segments cf [a, b] = crossfade_pair cf a b := rfl
  constructor
  · intro ha hb
    rw [hpair]
    unfold crossfade_pair
    rw [if_pos ⟨ha, hb⟩]
    simp only [List.length_append, List.length_take, List.length_drop,
      List.length_zipWith, linspace_length]
    omega
  · intro h
    rw [hpair]
    unfold crossfade_pair
    rw [if_neg (by omega)]
    simp

/-- C7 witness: on the concrete three-sample buffers, a 1-sample crossfade
gives length `3 + 3 - 1 = 5`, and a 5-sample crossfade degrades to
concatenation of length 6. -/
theorem crossfade_two_buffers_length_witness :
    (crossfade_segments 1 [[1, 2, 3], [4, 5, 6]]).length = 5 ∧
    (crossfade_segments 5 [[1, 2, 3], [4, 5, 6]]).length = 6 := by
  constructor
  · exact (crossfade_two_buffers_length [1, 2, 3] [4, 5, 6] 1).1 (by decide) (by decide)
  · exact (crossfade_two_buffers_length [1, 2, 3] [4, 5, 6] 5).2 (Or.inl (by decide))

end ProfessionalMixer

namespace ProfessionalMixer

theorem greedy_step_ne_nil (min_gap : ℚ) (target : ℕ) (acc : List PMSegment)
    (seg : HESeg) (hacc : acc ≠ []) : greedy_step min_gap target acc seg ≠ [] := by
  unfold greedy_step
  split
  · exact hacc
  split
  · exact hacc
  · simp

theorem foldl_greedy_step_ne_nil (min_gap : ℚ) (target : ℕ) :
    ∀ (l : List HESeg) (acc : List PMSegment), acc ≠ [] →
      l.foldl (greedy_step min_gap target) acc ≠ [] := by
  intro l
  induction l with
  | nil => intro acc hacc; exact hacc
  | cons seg rest ih =>
    intro acc hacc
    rw [List.foldl_cons]
    exact ih _ (greedy_step_ne_nil min_gap target acc seg hacc)

theorem greedy_select_ne_nil (min_gap : ℚ) (target : ℕ) (l : List HESeg)
    (hl : l ≠ []) (ht : 0 < target) : greedy_select min_gap target l ≠ [] := by
  match l with
  | [] => exact absurd rfl hl
  | seg :: rest =>
    unfold greedy_select
    rw [List.foldl_cons]
    apply foldl_greedy_step_ne_nil
    unfold greedy_step
    rw [if_neg (by simp only [List.length_nil, Nat.le_zero]; omega), if_neg (by simp)]
    simp

theorem onset_phase_zero_target (duration : ℚ) (onsets : List ℚ) (d1 d2 : ℕ → ℕ) :
    onset_phase duration onsets 0 d1 = onset_phase duration onsets 0 d2 := by
  unfold onset_phase
  split
  · rfl
  · simp [List.range_zero]

/-- C3 counterexample: the onset-based fallback draws a random duration
(`12 + np.random.randint(6, 18)`) per segment, so two calls with identical
feature input (no high-energy segments, one onset at t = 100 s), identical
duration 3600 s and identical parameters, but different states of the
process-global random stream, return different candidate lists. -/
theorem pm_selection_randomness_counterexample :
    intelligent_segment_selection 3600 ⟨[], [100]⟩ 5 (fun _ => 0) ≠
    intelligent_segment_selection 3600 ⟨[], [100]⟩ 5 (fun _ => 1) := by
  with_unfolding_all decide

/-- C3 (amended): selection is deterministic on the high-energy path and on
the equal-division last resort (and `audio_processor.py`'s selector takes no
random input at all); only the onset-based fallback consumes the random
stream. Whenever the feature input has high-energy segments, or has no
onsets, the result is independent of the random stream. -/
theorem pm_selection_rng_independent_off_onset_path (duration : ℚ)
    (analysis : Analysis) (target_segments : ℕ) (d1 d2 : ℕ → ℕ)
    (h : analysis.high_energy_segments ≠ [] ∨ analysis.onsets = []) :
    intelligent_segment_selection duration analysis target_segments d1 =
    intelligent_segment_selection duration analysis target_segments d2 := by
  unfold intelligent_segment_selection
  cases hE : analysis.high_energy_segments.isEmpty with
  | true =>
    have hO : analysis.onsets = [] := by
      rcases h with h1 | h1
      · exact absurd (List.isEmpty_iff.mp hE) h1
      · exact h1
    simp only [if_true]
    rw [hO]
    unfold onset_phase
    rfl
  | false =>
    simp only [Bool.false_eq_true, if_false]
    cases hS : (energy_phase duration analysis.high_energy_segments target_segments).isEmpty with
    | false => simp only [Bool.false_eq_true, if_false]
    | true =>
      simp only [if_true]
      have hT : target_segments = 0 := by
        by_contra hT
        refine greedy_select_ne_nil (duration / ((target_segments : ℚ) * 2))
          target_segments
          (analysis.high_energy_segments.insertionSort (fun a b => b.energy ≤ a.energy))
          ?_ (Nat.pos_of_ne_zero hT) (List.isEmpty_iff.mp hS)
        intro hnil
        have : analysis.high_energy_segments = [] := by
          have := List.perm_insertionSort (fun a b => b.energy ≤ a.energy)
            analysis.high_energy_segments
          rw [hnil] at this
          exact (List.Perm.nil_eq this).symm
        rw [this] at hE
        simp at hE
      subst hT
      exact onset_phase_zero_target duration analysis.onsets d1 d2

/-- C3 amended-claim witness: with one high-energy segment present, two
different random streams give the same selection. -/
theorem pm_selection_rng_independent_witness :
    intelligent_segment_selection 3600 ⟨[⟨100, 9/10⟩], []⟩ 5 (fun _ => 0) =
    intelligent_segment_selection 3600 ⟨[⟨100, 9/10⟩], []⟩ 5 (fun _ => 1) :=
  pm_selection_rng_independent_off_onset_path 3600 ⟨[⟨100, 9/10⟩], []⟩ 5
    (fun _ => 0) (fun _ => 1) (Or.inl (by simp))

end ProfessionalMixer

/-- C5 counterexample: `audio_processor.py`'s EnergyBased path applies no
minimum-spacing rule at all. With two valid high-energy segments starting at
t = 0 s and t = 5 s (min_duration = 10 s), both are selected even though
their start times are 5 s < min_duration apart. -/
theorem energy_selection_spacing_counterexample :
    AudioProcessor.intelligent_segment_selection
        ⟨3600, [⟨0, 15, 15, 9/10⟩, ⟨5, 20, 15, 8/10⟩]⟩ 2 10 30 =
      [{ name := "High Energy Segment 1", timestamp := 0, duration := 15,
         confidence := 9/10, selection_method := "energy_based" },
       { name := "High Energy Segment 2", timestamp := 5, duration := 15,
         confidence := 9/10, selection_method := "energy_based" }] ∧
    |(0 : ℚ) - 5| < 10 := by
  constructor
  · with_unfolding_all decide
  · with_unfolding_all decide

namespace ProfessionalMixer

theorem foldl_greedy_step_pairwise (min_gap : ℚ) (target : ℕ) :
    ∀ (l : List HESeg) (acc : List PMSegment),
      acc.Pairwise (fun a b => min_gap ≤ |a.timestamp - b.timestamp|) →
      (l.foldl (greedy_step min_gap target) acc).Pairwise
        (fun a b => min_gap ≤ |a.timestamp - b.timestamp|) := by
  intro l
  induction l with
  | nil => intro acc h; exact h
  | cons seg rest ih =>
    intro acc h
    rw [List.foldl_cons]
    apply ih
    unfold greedy_step
    split
    · exact h
    split
    · exact h
    · rename_i hlen hany
      rw [List.pairwise_append]
      refine ⟨h, List.pairwise_singleton _ _, ?_⟩
      intro a ha b hb
      simp only [List.mem_singleton] at hb
      subst hb
      simp only [List.any_eq_true, decide_eq_true_eq, not_exists, not_and, not_lt] at hany
      have := hany a ha
      calc min_gap ≤ |seg.time - a.timestamp| := this
        _ = |a.timestamp - seg.time| := abs_sub_comm _ _

theorem greedy_select_pairwise (min_gap : ℚ) (target : ℕ) (l : List HESeg) :
    (greedy_select min_gap target l).Pairwise
      (fun a b => min_gap ≤ |a.timestamp - b.timestamp|) :=
  foldl_greedy_step_pairwise min_gap target l [] (List.Pairwise.nil)

/-- C5 (amended): `professional_mixer.py`'s energy path does enforce a
minimum spacing, but the gap is `duration / (target_segments * 2)` between
*timestamps*, not `min_duration`: whenever the energy path is taken (some
high-energy segments, positive target), every two selected segments have
timestamps at least `duration / (target_segments * 2)` apart;
`audio_processor.py`'s energy path enforces no spacing at all (see the
counterexample). -/
theorem pm_energy_selection_min_gap_spacing (duration : ℚ) (analysis : Analysis)
    (target_segments : ℕ) (draws : ℕ → ℕ)
    (hne : analysis.high_energy_segments ≠ []) (ht : 0 < target_segments) :
    (intelligent_segment_selection duration analysis target_segments draws).Pairwise
      (fun a b =>
        duration / ((target_segments : ℚ) * 2) ≤ |a.timestamp - b.timestamp|) := by
  unfold intelligent_segment_selection
  cases hE : analysis.high_energy_segments.isEmpty with
  | true => exact absurd (List.isEmpty_iff.mp hE) hne
  | false =>
    simp only [Bool.false_eq_true, if_false]
    cases hS : (energy_phase duration analysis.high_energy_segments target_segments).isEmpty with
    | true =>
      exfalso
      refine greedy_select_ne_nil (duration / ((target_segments : ℚ) * 2))
        target_segments
        (analysis.high_energy_segments.insertionSort (fun a b => b.energy ≤ a.energy))
        ?_ ht (List.isEmpty_iff.mp hS)
      intro hnil
      have hp := List.perm_insertionSort (fun a b => b.energy ≤ a.energy)
        analysis.high_energy_segments
      rw [hnil] at hp
      exact hne (List.Perm.nil_eq hp).symm
    | false =>
      simp only [Bool.false_eq_true, if_false]
      have hsel := greedy_select_pairwise (duration / ((target_segments : ℚ) * 2))
        target_segments
        (analysis.high_energy_segments.insertionSort (fun a b => b.energy ≤ a.energy))
      exact ((List.perm_insertionSort (fun a b => a.timestamp ≤ b.timestamp) _).symm).pairwise
        hsel (fun {x y} hxy => by rw [abs_sub_comm]; exact hxy)

/-- C5 amended-claim witness: concrete segments at t = 0 s and t = 1000 s,
duration 3600 s, target 2, so the selection is pairwise spaced by at least
`3600 / 4 = 900` s. -/
theorem pm_energy_selection_min_gap_spacing_witness :
    (intelligent_segment_selection 3600 ⟨[⟨0, 9/10⟩, ⟨1000, 8/10⟩], []⟩ 2
        (fun _ => 0)).Pairwise
      (fun a b => 3600 / (((2 : ℕ) : ℚ) * 2) ≤ |a.timestamp - b.timestamp|) :=
  pm_energy_selection_min_gap_spacing 3600 ⟨[⟨0, 9/10⟩, ⟨1000, 8/10⟩], []⟩ 2
    (fun _ => 0) (by simp) (by decide)

end ProfessionalMixer

namespace AudioProcessor

/-- C6 counterexample: with a 5 s source and default-style parameters
(min_duration 10 s), the Distributed fallback clamps the start to 0 but keeps
the full `min_duration` length, producing a segment with
`start_time + duration = 10 > 5 = source_duration`. -/
theorem selector_bounds_counterexample :
    intelligent_segment_selection ⟨5, []⟩ 1 10 30 =
      [{ name := "Distributed Segment 1", timestamp := 0, duration := 10,
         confidence := 3/5, selection_method := "distributed" }] ∧
    ¬((0 : ℚ) + 10 ≤ 5) := by
  constructor
  · with_unfolding_all decide
  · with_unfolding_all decide

theorem create_distributed_segments_length (duration : ℚ) (count : ℕ)
    (min_duration : ℚ) :
    (create_distributed_segments duration count min_duration).length = count := by
  unfold create_distributed_segments
  rw [List.length_map, List.length_range]

theorem mem_create_distributed_segments (duration : ℚ) (count : ℕ)
    (min_duration : ℚ) (s : SelectedSegment)
    (h2 : min_duration ≤ duration)
    (hs : s ∈ create_distributed_segments duration count min_duration) :
    s.duration = min_duration ∧ 0 ≤ s.timestamp ∧
      s.timestamp + s.duration ≤ duration := by
  unfold create_distributed_segments at hs
  obtain ⟨i, _, rfl⟩ := List.mem_map.mp hs
  refine ⟨rfl, le_max_left _ _, ?_⟩
  have hle : max 0 (min (duration - min_duration)
      (((i : ℚ) + 1) * (duration / ((count : ℚ) + 1)) - min_duration / 2)) ≤
      duration - min_duration :=
    max_le (by linarith) (min_le_left _ _)
  simp only
  linarith

/-- C6 (amended): under the additional hypotheses that
`min_duration ≤ source_duration` (otherwise the Distributed fallback emits a
segment overrunning the source, see the counterexample),
`min_duration ≤ max_duration`, and that the analysis' high-energy segments
lie within the source, the selector's output has at most
`target_segments` segments, is chronologically sorted by timestamp, and every
segment satisfies `min_duration ≤ duration ≤ max_duration`,
`0 ≤ start_time` and `start_time + duration ≤ source_duration`. -/
theorem selector_output_invariants (analysis : Analysis) (target_segments : ℕ)
    (min_duration max_duration : ℚ)
    (h1 : min_duration ≤ max_duration) (h2 : min_duration ≤ analysis.duration)
    (h3 : ∀ s ∈ analysis.high_energy_segments,
        0 ≤ s.start_time ∧ s.start_time + s.duration ≤ analysis.duration) :
    (intelligent_segment_selection analysis target_segments min_duration
        max_duration).length ≤ target_segments ∧
    (intelligent_segment_selection analysis target_segments min_duration
        max_duration).Pairwise (fun a b => a.timestamp ≤ b.timestamp) ∧
    ∀ s ∈ intelligent_segment_selection analysis target_segments min_duration
        max_duration,
      min_duration ≤ s.duration ∧ s.duration ≤ max_duration ∧
      0 ≤ s.timestamp ∧ s.timestamp + s.duration ≤ analysis.duration := by
  haveI : IsTotal SelectedSegment (fun a b => a.timestamp ≤ b.timestamp) :=
    ⟨fun a b => le_total _ _⟩
  haveI : IsTrans SelectedSegment (fun a b => a.timestamp ≤ b.timestamp) :=
    ⟨fun _ _ _ hab hbc => le_trans hab hbc⟩
  refine ⟨?_, ?_, ?_⟩
  · unfold intelligent_segment_selection
    rw [List.length_insertionSort]
    split
    · rw [List.length_map, List.enum_length, List.length_take]
      exact min_le_left _ _
    · rw [create_distributed_segments_length]
  · exact List.sorted_insertionSort _ _
  · intro s hs
    unfold intelligent_segment_selection at hs
    rw [List.mem_insertionSort] at hs
    split at hs
    · obtain ⟨p, hp, rfl⟩ := List.mem_map.mp hs
      unfold List.enum at hp
      have hmem : p.2 ∈ (analysis.high_energy_segments.filter
          (fun s => decide (min_duration ≤ s.duration) &&
            decide (s.duration ≤ max_duration))).insertionSort
          (fun a b => b.energy_score ≤ a.energy_score) :=
        List.mem_of_mem_take (List.snd_mem_of_mem_enumFrom hp)
      rw [List.mem_insertionSort, List.mem_filter] at hmem
      obtain ⟨hhe, hpred⟩ := hmem
      simp only [Bool.and_eq_true, decide_eq_true_eq] at hpred
      obtain ⟨hb1, hb2⟩ := h3 p.2 hhe
      exact ⟨hpred.1, hpred.2, hb1, hb2⟩
    · obtain ⟨hd, hts, hbound⟩ := mem_create_distributed_segments
        analysis.duration target_segments min_duration s h2 hs
      rw [hd] at hbound
      rw [hd]
      exact ⟨le_refl _, h1, hts, hbound⟩

/-- C6 amended-claim witness: a concrete in-range analysis (3600 s source,
one 15 s high-energy segment, target 1, bounds 10/30 s) satisfies all the
hypotheses, so its selection satisfies the invariants. -/
theorem selector_output_invariants_witness :
    (intelligent_segment_selection ⟨3600, [⟨100, 115, 15, 9/10⟩]⟩ 1 10 30).length ≤ 1 ∧
    (intelligent_segment_selection ⟨3600, [⟨100, 115, 15, 9/10⟩]⟩ 1 10 30).Pairwise
      (fun a b => a.timestamp ≤ b.timestamp) ∧
    ∀ s ∈ intelligent_segment_selection ⟨3600, [⟨100, 115, 15, 9/10⟩]⟩ 1 10 30,
      (10 : ℚ) ≤ s.duration ∧ s.duration ≤ 30 ∧
      0 ≤ s.timestamp ∧ s.timestamp + s.duration ≤ (3600 : ℚ) :=
  selector_output_invariants ⟨3600, [⟨100, 115, 15, 9/10⟩]⟩ 1 10 30
    (by norm_num) (by norm_num)
    (by intro s hs; simp only [List.mem_singleton] at hs; subst hs; norm_num)

end AudioProcessor

namespace AudioProcessor

theorem process_single_segment_fst (proc : List ℚ → List ℚ) (full : List ℚ)
    (i : ℕ) (segment : MixSeg) :
    (process_single_segment proc full i segment).1 = i := by
  unfold process_single_segment
  split <;> rfl

theorem batch_results_pairwise (proc : List ℚ → List ℚ) (full : List ℚ) :
    ∀ (l : List MixSeg) (n : ℕ),
      ((l.enumFrom n).map (fun p => process_single_segment proc full p.1 p.2)).Pairwise
        (fun a b => a.1 ≤ b.1) := by
  intro l
  induction l with
  | nil => intro n; simp
  | cons s rest ih =>
    intro n
    rw [List.enumFrom_cons, List.map_cons]
    refine List.Pairwise.cons ?_ (ih (n + 1))
    intro q hq
    obtain ⟨p, hp, rfl⟩ := List.mem_map.mp hq
    rw [process_single_segment_fst, process_single_segment_fst]
    have h1 := List.le_fst_of_mem_enumFrom hp
    omega

theorem process_single_segment_head (proc : List ℚ → List ℚ) (full : List ℚ)
    (i : ℕ) (s : MixSeg) :
    (match (process_single_segment proc full i s).2 with
      | some b => if b.isEmpty then none else some b
      | none => none) =
    (if in_bounds full s then
      let b := proc (listSlice full (pyInt (s.timestamp * 1000))
        (pyInt (s.timestamp * 1000) + pyInt (s.duration * 1000)))
      if b.isEmpty then none else some b
    else none) := by
  unfold process_single_segment
  by_cases h : in_bounds full s
  · rw [if_pos h, if_pos h]
  · rw [if_neg h, if_neg h]

theorem batch_filterMap_enumFrom (proc : List ℚ → List ℚ) (full : List ℚ) :
    ∀ (l : List MixSeg) (n : ℕ),
      ((l.enumFrom n).map (fun p => process_single_segment proc full p.1 p.2)).filterMap
          (fun p => match p.2 with
            | some b => if b.isEmpty then none else some b
            | none => none) =
        l.filterMap (fun s =>
          if in_bounds full s then
            let b := proc (listSlice full (pyInt (s.timestamp * 1000))
              (pyInt (s.timestamp * 1000) + pyInt (s.duration * 1000)))
            if b.isEmpty then none else some b
          else none) := by
  intro l
  induction l with
  | nil => intro n; rfl
  | cons s rest ih =>
    intro n
    rw [List.enumFrom_cons, List.map_cons, List.filterMap_cons, List.filterMap_cons,
      ih (n + 1), process_single_segment_head proc full n s]

/-- Closed form of `batch_process_segments`: one `filterMap` over the
candidates in their original order — out-of-range candidates and empty
processed buffers contribute nothing; the index sort is the identity because
`executor.map` already returns results in submission order. -/
theorem batch_eq_filterMap (proc : List ℚ → List ℚ) (full : List ℚ)
    (segments : List MixSeg) :
    batch_process_segments proc full segments =
      segments.filterMap (fun s =>
        if in_bounds full s then
          let b := proc (listSlice full (pyInt (s.timestamp * 1000))
            (pyInt (s.timestamp * 1000) + pyInt (s.duration * 1000)))
          if b.isEmpty then none else some b
        else none) := by
  simp only [batch_process_segments]
  have hsorted : ((segments.enum).map
      (fun p => process_single_segment proc full p.1 p.2)).Sorted
        (fun a b => a.1 ≤ b.1) := by
    unfold List.enum
    exact batch_results_pairwise proc full segments 0
  rw [List.Sorted.insertionSort_eq hsorted]
  unfold List.enum
  exact batch_filterMap_enumFrom proc full segments 0

/-- C8: a candidate whose slice range fails the bounds check contributes no
buffer, and the batch result is exactly what it would be on the in-bounds
candidates alone — per-segment failures never abort the remaining
segments. -/
theorem out_of_range_segments_skipped (proc : List ℚ → List ℚ) (full : List ℚ)
    (segments : List MixSeg) :
    batch_process_segments proc full segments =
      batch_process_segments proc full (segments.filter (in_bounds full)) := by
  rw [batch_eq_filterMap, batch_eq_filterMap, List.filterMap_filter]
  congr 1
  funext s
  by_cases h : in_bounds full s
  · rw [if_pos h, if_pos h]
  · rw [if_neg h, if_neg h]

end AudioProcessor
